import Mathlib

/-!
Verification of the Overmortal progression-log pipeline.

The definitions below are a shallow embedding of `src/log_parser.py`
(class `LogParser`, class `ProgressionEntry`) and of the analytics
sections of `src/dashboard.py` (`compute_analytics`).  Text is modelled
as `List Char`; the handful of regular expressions used by the source
are implemented as explicit character-level matchers with the same
alternation order, greediness and scan (leftmost-match) behaviour.
Python floats are modelled as exact rationals, `datetime` as a record
of calendar fields validated exactly where `datetime.__init__` would
raise, and the one statement of the source that can raise an exception
past parsing (`entry.date.replace(year=...)` in `LogParser.parse`) is
modelled in the `Except` monad.
-/

abbrev Str := List Char

/-- Python `\s` on the ASCII range (also the set stripped by `str.strip()`). -/
def isSpace (c : Char) : Bool :=
  c = ' ' || c = '\t' || c = '\n' || c = '\r' || c = '\x0b' || c = '\x0c'

/-- Python `\d`. -/
def isDigit (c : Char) : Bool := '0' ≤ c && c ≤ '9'

/-- Python `\w` (ASCII). -/
def isWordChar (c : Char) : Bool :=
  ('a' ≤ c && c ≤ 'z') || ('A' ≤ c && c ≤ 'Z') || isDigit c || c = '_'

/-- `str.strip()`. -/
def strip (s : Str) : Str :=
  ((s.dropWhile isSpace).reverse.dropWhile isSpace).reverse

def splitLinesAux (cur : Str) : Str → List Str
  | [] => [cur.reverse]
  | c :: rest =>
    if c = '\n' then cur.reverse :: splitLinesAux [] rest
    else splitLinesAux (c :: cur) rest

/-- Python `str.split('\n')` (never returns an empty list). -/
def splitLines (s : Str) : List Str := splitLinesAux [] s

/-- Value of a digit string. -/
def natOfDigits (s : Str) : Nat :=
  s.foldl (fun n c => n * 10 + (c.toNat - '0'.toNat)) 0

/-- Value of the float literal `intPart.fracPart` (Python `float(...)`),
modelled exactly as a rational. -/
def numValOf (intPart fracPart : Str) : ℚ :=
  (natOfDigits intPart : ℚ) + (natOfDigits fracPart : ℚ) / (10 ^ fracPart.length)

/-- Match of `\d+\.?\d*` at the head of `s` (greedy), returning the value and
the rest of the input. -/
def parseNumAt (s : Str) : Option (ℚ × Str) :=
  let ds := s.takeWhile isDigit
  if ds = [] then none
  else
    match s.dropWhile isDigit with
    | '.' :: r2 => some (numValOf ds (r2.takeWhile isDigit), r2.dropWhile isDigit)
    | r => some (numValOf ds [], r)

/-- Match of `\d+` at the head of `s` (greedy), returning the integer value and
the rest. -/
def parseIntAt (s : Str) : Option (Nat × Str) :=
  let ds := s.takeWhile isDigit
  if ds = [] then none else some (natOfDigits ds, s.dropWhile isDigit)

/-- Case-insensitive literal match at the head of `s`; returns the rest. -/
def matchCI : Str → Str → Option Str
  | [], s => some s
  | _ :: _, [] => none
  | p :: ps, c :: cs => if p.toLower = c.toLower then matchCI ps cs else none

/-- `\s+` at the head of `s`. -/
def spaces1 (s : Str) : Option Str :=
  match s with
  | [] => none
  | c :: _ => if isSpace c then some (s.dropWhile isSpace) else none

/-- `\s*` at the head of `s`. -/
def spaces0 (s : Str) : Str := s.dropWhile isSpace

/-- Leftmost-match scan: try the single-position matcher `f` at every suffix,
left to right, as `re.search` does. -/
def scanFor {α : Type} (f : Str → Option α) : Str → Option α
  | [] => none
  | c :: rest =>
    match f (c :: rest) with
    | some v => some v
    | none => scanFor f rest

/-- The month alternation of `MONTH_NAMES_RE`, in the source's order, with the
month numbers of `MONTH_MAP`. -/
def MONTHS : List (Str × Nat) :=
  [("january".toList, 1), ("february".toList, 2), ("march".toList, 3),
   ("april".toList, 4), ("may".toList, 5), ("june".toList, 6),
   ("july".toList, 7), ("august".toList, 8), ("september".toList, 9),
   ("october".toList, 10), ("november".toList, 11), ("december".toList, 12)]

def matchMonthAux : List (Str × Nat) → Str → Option (Nat × Str)
  | [], _ => none
  | (p, n) :: rest, s =>
    match matchCI p s with
    | some r => some (n, r)
    | none => matchMonthAux rest s

/-- Match one month name of `MONTH_NAMES_RE` at the head of `s`
(case-insensitive), returning its `MONTH_MAP` number and the rest. -/
def matchMonth (s : Str) : Option (Nat × Str) := matchMonthAux MONTHS s

/-- `re.match(MONTH_NAMES_RE, block, re.IGNORECASE)` as a Boolean. -/
def startsWithMonth (b : Str) : Bool := (matchMonth b).isSome

/-- One-position matcher for `({MONTH_NAMES_RE})\s+(\d{1,2})(?:st|nd|rd|th)?`:
month name, whitespace, then the first one-or-two digits as the day. -/
def dateAt (s : Str) : Option (Nat × Nat) := do
  let (m, r) ← matchMonth s
  let r2 ← spaces1 r
  let ds := (r2.takeWhile isDigit).take 2
  if ds = [] then none else some (m, natOfDigits ds)

/-- `re.search` for the month/day pattern of `LogParser._parse_date`. -/
def searchDate (s : Str) : Option (Nat × Nat) := scanFor dateAt s

/-- One-position matcher for `(\d{1,2}):(\d{2})\s*(AM|PM)` (case-insensitive),
returning the raw hour digits, raw minute digits, and the PM flag.  The
`\d{1,2}` group backtracks from two digits to one. -/
def timeAtWith (hs : Str) (r : Str) : Option (Str × Str × Bool) := do
  match r with
  | ':' :: r2 =>
    let ms := r2.takeWhile isDigit
    if ms.length < 2 then none
    else
      let mm := ms.take 2
      let r3 := spaces0 (r2.drop 2)
      match matchCI "am".toList r3 with
      | some _ => some (hs, mm, false)
      | none =>
        match matchCI "pm".toList r3 with
        | some _ => some (hs, mm, true)
        | none => none
  | _ => none

def timeAt (s : Str) : Option (Str × Str × Bool) :=
  let run := s.takeWhile isDigit
  if run.length ≥ 2 then
    match timeAtWith (s.take 2) (s.drop 2) with
    | some v => some v
    | none =>
      if run.length ≥ 1 then timeAtWith (s.take 1) (s.drop 1) else none
  else if run.length = 1 then timeAtWith (s.take 1) (s.drop 1)
  else none

/-- `re.search(r'(\d{1,2}):(\d{2})\s*(AM|PM)', header, re.IGNORECASE)`,
with the captured digit strings kept raw. -/
def searchTimeRaw (s : Str) : Option (Str × Str × Bool) := scanFor timeAt s

/-- The same search with the groups converted to numbers, as
`LogParser._parse_date` consumes them. -/
def searchTimeVals (s : Str) : Option (Nat × Nat × Bool) :=
  (searchTimeRaw s).map fun (hs, ms, pm) => (natOfDigits hs, natOfDigits ms, pm)

/-- The 12-hour to 24-hour conversion of `LogParser._parse_date`:
`PM` adds 12 unless the hour is 12; `AM` at hour 12 becomes 0. -/
def to24 (hour : Nat) (pm : Bool) : Nat :=
  if pm && hour ≠ 12 then hour + 12
  else if !pm && hour = 12 then 0
  else hour

/-- The 24-hour value (and minute) recovered by `LogParser._parse_date` from
an explicit `H:MM AM|PM` time in the header, before `datetime` validation. -/
def recoverHour24 (header : Str) : Option (Nat × Nat) :=
  (searchTimeVals header).map fun (h, m, pm) => (to24 h pm, m)

/-- Phase alternation `(Early|Middle|Late)` (case-insensitive), canonical
capitalized spelling as produced by `m.group(2).capitalize()`. -/
def matchPhase (s : Str) : Option (Str × Str) :=
  match matchCI "early".toList s with
  | some r => some ("Early".toList, r)
  | none =>
    match matchCI "middle".toList s with
    | some r => some ("Middle".toList, r)
    | none =>
      match matchCI "late".toList s with
      | some r => some ("Late".toList, r)
      | none => none

/-- One-position matcher for `(Celesti\w+|Eternal)\s+(Early|Middle|Late)`
(case-insensitive), already canonicalized per `LogParser._parse_stage`:
a `Celesti...` token becomes realm `Celestial`, else realm `Eternal`. -/
def stageAt (s : Str) : Option Str :=
  match matchCI "celesti".toList s with
  | some r =>
    let w := r.takeWhile isWordChar
    if w = [] then none
    else do
      let r2 ← spaces1 (r.dropWhile isWordChar)
      let (ph, _) ← matchPhase r2
      some ("Celestial ".toList ++ ph)
  | none => do
    let r ← matchCI "eternal".toList s
    let r2 ← spaces1 r
    let (ph, _) ← matchPhase r2
    some ("Eternal ".toList ++ ph)

/-- `LogParser._parse_stage`. -/
def parse_stage (header : Str) : Option Str := scanFor stageAt header

/-- One-position matcher for `\((\d+\.?\d*)%\)`. -/
def pctAt (s : Str) : Option ℚ :=
  match s with
  | '(' :: r =>
    match parseNumAt r with
    | some (q, r2) =>
      match r2 with
      | '%' :: ')' :: _ => some q
      | _ => none
    | none => none
  | _ => none

/-- `LogParser._parse_stage_percent`. -/
def parse_stage_percent (header : Str) : Option ℚ := scanFor pctAt header

/-- Case-insensitive substring test (a Boolean `re.search`). -/
def containsCI (pat : Str) (s : Str) : Bool :=
  (scanFor (fun t => matchCI pat t) s).isSome

/-- `bool(re.search(r'predicted|chatgpt', header, re.IGNORECASE))`. -/
def searchPredicted (header : Str) : Bool :=
  containsCI "predicted".toList header || containsCI "chatgpt".toList header

/-- One-position matcher for `G(\d+)\s+at\s+(\d+\.?\d*)\s*%`
(case-insensitive), returning the two groups and the rest after the match. -/
def gAt (s : Str) : Option (Nat × ℚ × Str) := do
  let r ← matchCI "g".toList s
  let (g, r2) ← parseIntAt r
  let r3 ← spaces1 r2
  let r4 ← matchCI "at".toList r3
  let r5 ← spaces1 r4
  let (q, r6) ← parseNumAt r5
  match spaces0 r6 with
  | '%' :: r7 => some (g, q, r7)
  | _ => none

def findGAtAux : Nat → Str → List (Nat × ℚ)
  | 0, _ => []
  | _, [] => []
  | fuel + 1, c :: rest =>
    match gAt (c :: rest) with
    | some (g, q, rem) => (g, q) :: findGAtAux fuel rem
    | none => findGAtAux fuel rest

/-- `re.findall(r'G(\d+)\s+at\s+(\d+\.?\d*)\s*%', text, re.IGNORECASE)`:
left-to-right, non-overlapping. -/
def findGAt (s : Str) : List (Nat × ℚ) := findGAtAux s.length s

/-- One-position matcher for `currently\s+at\s+(\d+\.?\d*)%`
(case-insensitive). -/
def currentlyAt (s : Str) : Option ℚ := do
  let r ← matchCI "currently".toList s
  let r2 ← spaces1 r
  let r3 ← matchCI "at".toList r2
  let r4 ← spaces1 r3
  let (q, r5) ← parseNumAt r4
  match r5 with
  | '%' :: _ => some q
  | _ => none

/-- The `currently at X%` fallback search of `LogParser._parse_g_info`. -/
def searchCurrently (s : Str) : Option ℚ := scanFor currentlyAt s

/-- `(?:Celestial|Eternal)` (case-insensitive, exact tokens, in alternation
order), as used inside the breakthrough patterns. -/
def matchRealmExact (s : Str) : Option Str :=
  match matchCI "celestial".toList s with
  | some r => some r
  | none => matchCI "eternal".toList s

/-- `(?:bt|[Bb]reakthrough)\s+to\s+` (case-insensitive): the shared prefix of
every breakthrough pattern, alternative `bt` tried first, with fallback to
`breakthrough` when the rest of the pattern fails after `bt`. -/
def btToAt (cont : Str → Option α) (s : Str) : Option α :=
  let tailCont : Str → Option α := fun r => do
    let r2 ← spaces1 r
    let r3 ← matchCI "to".toList r2
    let r4 ← spaces1 r3
    cont r4
  match matchCI "bt".toList s with
  | some r =>
    match tailCont r with
    | some v => some v
    | none => (matchCI "breakthrough".toList s).bind tailCont
  | none => (matchCI "breakthrough".toList s).bind tailCont

/-- `G(\d+)\s+at\s+(\d+\.?\d*)%` — the grade/percent tail of breakthrough
patterns 1 and 2 (note: `%` directly after the number, no `\s*`). -/
def gAtPctTail (s : Str) : Option (Nat × ℚ) := do
  let r ← matchCI "g".toList s
  let (g, r2) ← parseIntAt r
  let r3 ← spaces1 r2
  let r4 ← matchCI "at".toList r3
  let r5 ← spaces1 r4
  let (q, r6) ← parseNumAt r5
  match r6 with
  | '%' :: _ => some (g, q)
  | _ => none

/-- `(?:Celestial|Eternal)\s+\w+\s+` — realm then one word token (the phase
slot) then whitespace, as in breakthrough patterns 1 and 3. -/
def realmWordTail (s : Str) : Option Str := do
  let r ← matchRealmExact s
  let r2 ← spaces1 r
  let w := r2.takeWhile isWordChar
  if w = [] then none
  else spaces1 (r2.dropWhile isWordChar)

/-- Breakthrough pattern 1:
`(?:bt|[Bb]reakthrough)\s+to\s+(?:Celestial|Eternal)\s+\w+\s+G(\d+)\s+at\s+(\d+\.?\d*)%`. -/
def bt1At (s : Str) : Option (Nat × ℚ) :=
  btToAt (fun r => (realmWordTail r).bind gAtPctTail) s

/-- Breakthrough pattern 2:
`(?:bt|[Bb]reakthrough)\s+to\s+G(\d+)\s+at\s+(\d+\.?\d*)%`. -/
def bt2At (s : Str) : Option (Nat × ℚ) := btToAt gAtPctTail s

/-- Breakthrough pattern 3:
`(?:bt|[Bb]reakthrough)\s+to\s+(?:Celestial|Eternal)\s+\w+\s+G(\d+)`. -/
def bt3At (s : Str) : Option Nat :=
  btToAt (fun r => do
    let r2 ← realmWordTail r
    let r3 ← matchCI "g".toList r2
    let (g, _) ← parseIntAt r3
    some g) s

/-- Breakthrough pattern 4: `(?:bt|[Bb]reakthrough)\s+to\s+G(\d+)`. -/
def bt4At (s : Str) : Option Nat :=
  btToAt (fun r => do
    let r2 ← matchCI "g".toList r
    let (g, _) ← parseIntAt r2
    some g) s

/-- Breakthrough pattern 5:
`(?:bt|[Bb]reakthrough)\s+to\s+(?:Celestial|Eternal)\s+(?:Early|Middle|Late)`. -/
def bt5At (s : Str) : Option Unit :=
  btToAt (fun r => do
    let r2 ← matchRealmExact r
    let r3 ← spaces1 r2
    let _ ← matchPhase r3
    some ()) s

/-- Catch-all `(?:bt|breakthrough)\s+to\s+` (trailing whitespace required). -/
def btCatchAt (s : Str) : Option Unit := btToAt (fun _ => some ()) s

/-- Word boundary `\b` immediately after a unit token: the next character is
not a word character (or the input ends). -/
def atBoundary (s : Str) : Bool :=
  match s with
  | [] => true
  | c :: _ => !isWordChar c

def matchUnitAux (alts : List Str) (s : Str) : Bool :=
  match alts with
  | [] => false
  | a :: rest =>
    match matchCI a s with
    | some r => if atBoundary r then true else matchUnitAux rest s
    | none => matchUnitAux rest s

/-- One-position matcher for `(\d+\.?\d*)\s*(?:Yrs?|Ys|Years?)\b`
(case-insensitive); unit alternatives in the regex's backtracking order. -/
def yearsToAt (s : Str) : Option ℚ := do
  let (q, r) ← parseNumAt s
  let r2 := spaces0 r
  if matchUnitAux ["yrs".toList, "yr".toList, "ys".toList,
                   "years".toList, "year".toList] r2
  then some q else none

/-- One-position matcher for `(\d+)\s*(?:Hrs?|Hours?|hrs)\b`
(case-insensitive). -/
def hoursToAt (s : Str) : Option Nat := do
  let (n, r) ← parseIntAt s
  let r2 := spaces0 r
  if matchUnitAux ["hrs".toList, "hr".toList, "hours".toList, "hour".toList] r2
  then some n else none

/-- One-position matcher for `(\d+)\s*(?:Min(?:utes?)?|MIin|MIn)\b`
(case-insensitive). -/
def minutesToAt (s : Str) : Option Nat := do
  let (n, r) ← parseIntAt s
  let r2 := spaces0 r
  if matchUnitAux ["minutes".toList, "minute".toList, "min".toList,
                   "miin".toList] r2
  then some n else none

/-- One-position matcher for `(\d+)\s+and\s+(\d+)\s*(?:Min|MIin|MIn)`
(case-insensitive, no word boundary). -/
def hoursAndAt (s : Str) : Option (Nat × Nat) := do
  let (h, r) ← parseIntAt s
  let r2 ← spaces1 r
  let r3 ← matchCI "and".toList r2
  let r4 ← spaces1 r3
  let (m, r5) ← parseIntAt r4
  let r6 := spaces0 r5
  if (matchCI "min".toList r6).isSome || (matchCI "miin".toList r6).isSome
  then some (h, m) else none

/-- The second alternative of the milestone capture group:
`(?:Celestial|Eternal)\s+(?:Early|Middle|Late)(?:\s+G\d+)?`, with the optional
trailing grade reference taken greedily. -/
def milestoneRealmAt (s : Str) : Option Str := do
  let r ← matchRealmExact s
  let r2 ← spaces1 r
  let (_, r3) ← matchPhase r2
  let withG : Option Str := do
    let r4 ← spaces1 r3
    let r5 ← matchCI "g".toList r4
    let ds := r5.takeWhile isDigit
    if ds = [] then none else some (r5.dropWhile isDigit)
  match withG with
  | some r' => some r'
  | none => some r3

/-- The capture group of the milestone pattern,
`G\d+|(?:Celestial|Eternal)\s+(?:Early|Middle|Late)(?:\s+G\d+)?`, matched at
the head of `s`; returns the rest of the input after the group.  The captured
text itself is recovered by the caller as the consumed prefix of `s`. -/
def milestoneGroupAt (s : Str) : Option Str :=
  match matchCI "g".toList s with
  | some r =>
    let ds := r.takeWhile isDigit
    if ds = [] then milestoneRealmAt s else some (r.dropWhile isDigit)
  | none => milestoneRealmAt s

/-- One-position matcher for the whole milestone pattern `to\s+(<group>)`;
returns the captured group text and the rest after the match. -/
def milestoneAt (s : Str) : Option (Str × Str) := do
  let r ← matchCI "to".toList s
  let r2 ← spaces1 r
  let rem ← milestoneGroupAt r2
  some (r2.take (r2.length - rem.length), rem)

def findMilestonesAux : Nat → Str → List Str
  | 0, _ => []
  | _, [] => []
  | fuel + 1, c :: rest =>
    match milestoneAt (c :: rest) with
    | some (cap, rem) => cap :: findMilestonesAux fuel rem
    | none => findMilestonesAux fuel rest

/-- `re.findall` for the `to <target>` milestone pattern of
`LogParser._parse_time_to_next`. -/
def findMilestones (s : Str) : List Str := findMilestonesAux s.length s

/-- A `datetime.datetime` value (at the minute precision the parser uses). -/
structure DT where
  year : Nat
  month : Nat
  day : Nat
  hour : Nat
  minute : Nat
deriving DecidableEq, Repr, Inhabited

/-- Gregorian leap-year rule, as `datetime` uses. -/
def isLeap (y : Nat) : Bool := y % 4 = 0 && (y % 100 ≠ 0 || y % 400 = 0)

def daysInMonth (y m : Nat) : Nat :=
  if m = 1 then 31
  else if m = 2 then (if isLeap y then 29 else 28)
  else if m = 3 then 31
  else if m = 4 then 30
  else if m = 5 then 31
  else if m = 6 then 30
  else if m = 7 then 31
  else if m = 8 then 31
  else if m = 9 then 30
  else if m = 10 then 31
  else if m = 11 then 30
  else if m = 12 then 31
  else 0

/-- The argument validation of `datetime.__init__` (which raises `ValueError`
on failure). -/
def validDT (y m d h mi : Nat) : Bool :=
  1 ≤ y && y ≤ 9999 && 1 ≤ m && m ≤ 12 && 1 ≤ d && d ≤ daysInMonth y m &&
  h ≤ 23 && mi ≤ 59

/-- `datetime(year, month, day, hour, minute)` under `try/except`. -/
def mkDT (y m d h mi : Nat) : Option DT :=
  if validDT y m d h mi then some ⟨y, m, d, h, mi⟩ else none

/-- `d.replace(year=y)` — raises (returns `none`) when the resulting date is
invalid, e.g. February 29 of a non-leap year. -/
def replaceYear (d : DT) (y : Nat) : Option DT :=
  if validDT y d.month d.day d.hour d.minute then some { d with year := y }
  else none

/-- Days from the civil epoch to the start of year `y` (proleptic Gregorian),
used only as a sortable linear key and for date differences. -/
def daysBeforeYear (y : Nat) : Nat :=
  365 * (y - 1) + (y - 1) / 4 - (y - 1) / 100 + (y - 1) / 400

def daysBeforeMonth (y m : Nat) : Nat :=
  ((List.range (m - 1)).map (fun i => daysInMonth y (i + 1))).sum

/-- Civil day number of a date. -/
def toDays (d : DT) : Nat := daysBeforeYear d.year + daysBeforeMonth d.year d.month + (d.day - 1)

/-- Minutes since the epoch: a linear key on `DT` equivalent to ordering the
ISO strings `datetime.isoformat()` produces (the year is zero-padded to four
digits, so lexicographic order on those strings is field order). -/
def toMinutes (d : DT) : Nat := toDays d * 1440 + d.hour * 60 + d.minute

/-- `ProgressionEntry`, with its `__init__` defaults. -/
structure Entry where
  raw_text : Str := []
  date : Option DT := none
  time : Option Str := none
  stage_name : Option Str := none
  stage_percent : Option ℚ := none
  g_level : Option Nat := none
  g_percent : Option ℚ := none
  years_to_next : Option ℚ := none
  hours_to_next : Option Nat := none
  minutes_to_next : Option Nat := none
  next_milestone : Option Str := none
  is_breakthrough : Bool := false
  notes : List Str := []
  is_predicted : Bool := false
deriving DecidableEq, Repr, Inhabited

/-- `LogParser._parse_date`: month/day match, optional explicit time
(defaulting to noon), 12h-to-24h conversion, then `datetime` construction
with the day-clamping fallback `min(day, 28)`. -/
def parse_date (header : Str) (year : Nat) : Option DT :=
  match searchDate header with
  | none => none
  | some (month, day) =>
    let hm : Nat × Nat :=
      match searchTimeVals header with
      | some (h, mi, pm) => (to24 h pm, mi)
      | none => (12, 0)
    match mkDT year month day hm.1 hm.2 with
    | some d => some d
    | none => mkDT year month (min day 28) hm.1 hm.2

/-- `LogParser._parse_time`: the display string `f"{h}:{mm} {AM|PM}"` built
from the raw captured digits. -/
def parse_time (header : Str) : Option Str :=
  (searchTimeRaw header).map fun (hs, ms, pm) =>
    hs ++ ':' :: ms ++ ' ' :: (if pm then "PM".toList else "AM".toList)

/-- `LogParser._parse_breakthrough`: the ordered five-pattern rule chain,
first match wins, then the catch-all that only sets the flag. -/
def parse_breakthrough (text : Str) (e : Entry) : Entry :=
  match scanFor bt1At text with
  | some (g, q) =>
    { e with is_breakthrough := true, g_level := some g, g_percent := some q }
  | none =>
    match scanFor bt2At text with
    | some (g, q) =>
      { e with is_breakthrough := true, g_level := some g, g_percent := some q }
    | none =>
      match scanFor bt3At text with
      | some g => { e with is_breakthrough := true, g_level := some g }
      | none =>
        match scanFor bt4At text with
        | some g => { e with is_breakthrough := true, g_level := some g }
        | none =>
          match scanFor bt5At text with
          | some _ => { e with is_breakthrough := true }
          | none =>
            if (scanFor btCatchAt text).isSome then
              { e with is_breakthrough := true }
            else e

/-- `LogParser._parse_g_info`: all `G<N> at <X>%` occurrences, last one
authoritative; otherwise the `currently at X%` fallback fills the percent
only when it is still unset. -/
def parse_g_info (text : Str) (e : Entry) : Entry :=
  match (findGAt text).getLast? with
  | some (g, q) => { e with g_level := some g, g_percent := some q }
  | none =>
    if e.g_percent = none then
      match searchCurrently text with
      | some q => { e with g_percent := some q }
      | none => e
    else e

/-- `LogParser._parse_time_to_next`: the four independent sub-extractions and
the last-match milestone target. -/
def parse_time_to_next (text : Str) (e : Entry) : Entry :=
  let e1 :=
    match scanFor yearsToAt text with
    | some q => { e with years_to_next := some q }
    | none => e
  let e2 :=
    match scanFor hoursToAt text with
    | some n => { e1 with hours_to_next := some n }
    | none => e1
  let e3 :=
    match scanFor minutesToAt text with
    | some n => { e2 with minutes_to_next := some n }
    | none => e2
  let e4 :=
    if e3.hours_to_next = none then
      match scanFor hoursAndAt text with
      | some (h, m) => { e3 with hours_to_next := some h, minutes_to_next := some m }
      | none => e3
    else e3
  match (findMilestones text).getLast? with
  | some cap => { e4 with next_milestone := some cap }
  | none => e4

/-- `LogParser._parse_block`: header fields, date gate, the three body
extractors (grade info on body-only text unless the body is empty), and the
stripped non-empty note lines. -/
def parse_block (block : Str) (year : Nat) : Option Entry :=
  match splitLines (strip block) with
  | [] => none
  | h0 :: rest =>
    let lines := h0 :: rest
    let header := strip h0
    let e0 : Entry :=
      { raw_text := block,
        date := parse_date header year,
        time := parse_time header,
        stage_name := parse_stage header,
        stage_percent := parse_stage_percent header,
        is_predicted := searchPredicted header }
    match e0.date with
    | none => none
    | some _ =>
      let all_text := List.intercalate ['\n'] lines
      let body_text := if rest.isEmpty then [] else List.intercalate ['\n'] rest
      let e1 := parse_breakthrough all_text e0
      let e2 := parse_g_info (if body_text = [] then all_text else body_text) e1
      let e3 := parse_time_to_next all_text e2
      some { e3 with notes := (rest.map strip).filter (fun l => l ≠ []) }

/-- One-position matcher (at a `^` position) for
`^\s*(\d{4})\s*$` with `re.MULTILINE`: optional whitespace (which may span
newlines), exactly a four-digit run, then whitespace up to an end of line. -/
def matchYearAt (s : Str) : Option Nat :=
  let s1 := s.dropWhile isSpace
  let ds := s1.takeWhile isDigit
  if ds.length = 4 then
    let r := s1.drop 4
    if (r.takeWhile (fun c => c ≠ '\n')).all isSpace then some (natOfDigits ds)
    else none
  else none

def tailsAfterNewline : Str → List Str
  | [] => []
  | c :: rest =>
    if c = '\n' then rest :: tailsAfterNewline rest else tailsAfterNewline rest

/-- `re.search(r'^\s*(\d{4})\s*$', content, re.MULTILINE)`: the `^` positions
(start of input and each position after a newline) tried left to right. -/
def searchYearLine (content : Str) : Option Nat :=
  (content :: tailsAfterNewline content).findSome? matchYearAt

/-- The zero-width lookahead `(?=\s*{MONTH_NAMES_RE}\s+\d{1,2})` of the block
split pattern, tested at one position. -/
def monthLookahead (s : Str) : Bool :=
  match matchMonth (s.dropWhile isSpace) with
  | some (_, r) =>
    match spaces1 r with
    | some r2 =>
      match r2 with
      | c :: _ => isDigit c
      | [] => false
    | none => false
  | none => false

def splitAtMonthsAux (cur : Str) : Str → List Str
  | [] => [cur.reverse]
  | c :: rest =>
    if monthLookahead (c :: rest) then
      cur.reverse :: splitAtMonthsAux [c] rest
    else splitAtMonthsAux (c :: cur) rest

/-- `re.split(pattern, content, flags=re.IGNORECASE)` for the zero-width
month-boundary pattern: the input is cut at every position where the
lookahead holds. -/
def splitAtMonths (s : Str) : List Str := splitAtMonthsAux [] s

/-- The year-rollover trigger of `LogParser.parse`:
`prev_month is not None and prev_month >= 10 and month <= 2`. -/
def rolloverTriggers (prevM : Option Nat) (m : Nat) : Bool :=
  match prevM with
  | none => false
  | some pm => 10 ≤ pm && m ≤ 2

/-- The year assigned to each successive entry month by the rollover fold of
`LogParser.parse` (state: `current_year`, `prev_month`). -/
def rolloverYears (year : Nat) (prevM : Option Nat) : List Nat → List Nat
  | [] => []
  | m :: rest =>
    if rolloverTriggers prevM m then
      (year + 1) :: rolloverYears (year + 1) (some m) rest
    else year :: rolloverYears year (some m) rest

/-- The block loop of `LogParser.parse`: strip, skip empties and blocks not
starting with a month name, parse, drop dateless entries, apply the rollover
rewrite (whose `date.replace(year=...)` raises — `Except.error` — on an
invalid resulting date), and collect entries in order. -/
def parseBlocksAux (year : Nat) (prevM : Option Nat) :
    List Str → Except String (List Entry)
  | [] => .ok []
  | b :: rest =>
    let block := strip b
    if block = [] then parseBlocksAux year prevM rest
    else if !startsWithMonth block then parseBlocksAux year prevM rest
    else
      match parse_block block year with
      | none => parseBlocksAux year prevM rest
      | some e =>
        match e.date with
        | none => parseBlocksAux year prevM rest
        | some d =>
          if rolloverTriggers prevM d.month then
            match replaceYear d (year + 1) with
            | none => .error "ValueError: day is out of range for month"
            | some d2 =>
              (parseBlocksAux (year + 1) (some d2.month) rest).map
                (fun l => { e with date := some d2 } :: l)
          else
            (parseBlocksAux year (some d.month) rest).map (fun l => e :: l)

/-- The mutable parser object: the file's content stands in for the
`log_file` path (the file is read once per `parse()` call). -/
structure LogParser where
  log_content : Str
  entries : List Entry := []
  base_year : Nat := 2025
deriving DecidableEq, Repr

/-- `LogParser.parse`: read the content, recover the base year, split into
blocks, run the block loop, and append the new entries to `self.entries`
(which is also the return value). -/
def LogParser.parse (p : LogParser) : Except String (LogParser × List Entry) :=
  let content := p.log_content
  let base := (searchYearLine content).getD p.base_year
  let raw_blocks := splitAtMonths content
  match parseBlocksAux base none raw_blocks with
  | .error msg => .error msg
  | .ok fresh =>
    let es := p.entries ++ fresh
    .ok ({ p with entries := es, base_year := base }, es)

/-- The fixed six-stage order of `dashboard.STAGE_ORDER`. -/
def STAGE_ORDER : List Str :=
  ["Celestial Early".toList, "Celestial Middle".toList, "Celestial Late".toList,
   "Eternal Early".toList, "Eternal Middle".toList, "Eternal Late".toList]

/-- Python's `x or 0` applied to a number (0.0 is falsy). -/
def pyOr0 (q : ℚ) : ℚ := if q = 0 then 0 else q

/-- Python `round` to an integer: banker's rounding (half to even). -/
def pyRoundInt (q : ℚ) : ℤ :=
  let f := ⌊q⌋
  let r := q - f
  if r < 1 / 2 then f
  else if 1 / 2 < r then f + 1
  else if f % 2 = 0 then f else f + 1

/-- Python `round(q, n)`. -/
def pyRound (q : ℚ) (n : Nat) : ℚ := (pyRoundInt (q * 10 ^ n) : ℚ) / 10 ^ n

/-- Sort key used by `compute_analytics`: the entries are sorted by their ISO
date strings, whose lexicographic order is the chronological order modelled
by `toMinutes` (dateless entries, already filtered out, key 0). -/
def dateKeyE (e : Entry) : Nat :=
  match e.date with
  | some d => toMinutes d
  | none => 0

def insertByKey (e : Entry) : List Entry → List Entry
  | [] => [e]
  | x :: xs => if dateKeyE x ≤ dateKeyE e then x :: insertByKey e xs else e :: x :: xs

/-- Stable sort by date key (Python `sorted` is stable: equal keys keep their
original relative order). -/
def sortByDate (l : List Entry) : List Entry :=
  l.foldl (fun acc e => insertByKey e acc) []

/-- `valid = sorted([e for e in dicts if e['date']], key=lambda x: x['date'])`. -/
def validEntries (entries : List Entry) : List Entry :=
  sortByDate (entries.filter (fun e => e.date.isSome))

/-- The per-stage entry list `se` of `compute_analytics` (filter then sort,
the defensive re-sort being stable hence order-preserving). -/
def stageEntriesSorted (valid : List Entry) (stage : Str) : List Entry :=
  sortByDate (valid.filter (fun e => e.stage_name == some stage))

/-- One value of the `stages` dict of `compute_analytics`: either the
no-entries shape `{'completed': False, 'entries': 0, 'days': 0}` or the full
shape. -/
structure StageStat where
  completed : Bool
  entries : Nat
  days : Nat
  start_date : Option DT := none
  end_date : Option DT := none
  start_percent : Option ℚ := none
  end_percent : Option ℚ := none
  daily_rate : Option ℚ := none
  breakthroughs : Option Nat := none
deriving DecidableEq, Repr

/-- The per-stage statistics loop body of `compute_analytics` (dashboard.py
lines 74-107) for one stage. -/
def stageStatFor (valid : List Entry) (stage : Str) : StageStat :=
  match stageEntriesSorted valid stage with
  | [] => { completed := false, entries := 0, days := 0 }
  | e0 :: rest =>
    let se := e0 :: rest
    let eN := (se.getLast?).getD e0
    let sd := dateKeyE e0
    let ed := dateKeyE eN
    let days := max ((ed - sd) / 1440) 1
    let sp := pyOr0 (e0.stage_percent.getD 0)
    let ep := pyOr0 (eN.stage_percent.getD 0)
    let rate := if 0 < days then pyRound ((ep - sp) / (days : ℚ)) 4 else 0
    let si := STAGE_ORDER.indexOf stage
    let completed := decide (99 ≤ ep) ||
      (decide (si < STAGE_ORDER.length - 1) &&
        valid.any (fun e => e.stage_name == some (STAGE_ORDER.getD (si + 1) [])))
    { completed := completed, entries := se.length, days := days,
      start_date := e0.date, end_date := eN.date,
      start_percent := some sp, end_percent := some ep,
      daily_rate := some rate,
      breakthroughs := some (se.countP (fun e => e.is_breakthrough)) }

/-- The end percent of a stage's own entries, as `compute_analytics` reads it:
`se[-1].get('stage_percent') or 0`. -/
def endPercent (valid : List Entry) (stage : Str) : ℚ :=
  match (stageEntriesSorted valid stage).getLast? with
  | some e => pyOr0 (e.stage_percent.getD 0)
  | none => 0

/-- The stage-completion predicate exactly as the specification words it
(claim C1): end percent of the stage's own entries at least 99, or some entry
anywhere whose stage is strictly later in the fixed six-stage order. -/
def specCompleted (valid : List Entry) (stage : Str) : Bool :=
  decide (99 ≤ endPercent valid stage) ||
  valid.any (fun e =>
    (e.stage_name.map (fun s =>
      decide (s ∈ STAGE_ORDER) &&
      decide (STAGE_ORDER.indexOf stage < STAGE_ORDER.indexOf s))).getD false)

/-- One value of the `efficiency` dict. -/
structure EffStat where
  hours_per_pct : ℚ
  pct_per_day : ℚ
deriving DecidableEq, Repr

/-- The consecutive-pair accumulation of the efficiency loop: total hours and
total percent over same-stage pairs with both percents known and a positive
percent gain. -/
def effPairs : List Entry → ℚ × ℚ
  | p :: c :: rest =>
    let tl := effPairs (c :: rest)
    match p.stage_percent, c.stage_percent with
    | some pp, some cp =>
      let hrs : ℚ := ((dateKeyE c : ℚ) - (dateKeyE p : ℚ)) / 60
      let pct := cp - pp
      if 0 < pct then (tl.1 + hrs, tl.2 + pct) else tl
    | _, _ => tl
  | _ => (0, 0)

/-- The efficiency loop body of `compute_analytics` (dashboard.py lines
156-181) for one stage. -/
def effFor (valid : List Entry) (stage : Str) : Option EffStat :=
  let se := stageEntriesSorted valid stage
  if se.length < 2 then none
  else
    let tot := effPairs se
    if 0 < tot.2 then
      some { hours_per_pct := pyRound (tot.1 / tot.2) 2,
             pct_per_day := if tot.1 ≠ 0 then pyRound (tot.2 * 24 / tot.1) 4 else 0 }
    else none

/-- The full `efficiency` dict (insertion order = `STAGE_ORDER`). -/
def efficiencyOf (valid : List Entry) : List (Str × EffStat) :=
  STAGE_ORDER.filterMap (fun s => (effFor valid s).map (fun v => (s, v)))

/-- The `predictions` dict of `compute_analytics`. -/
structure Prediction where
  current_rate : ℚ
  days_remaining : ℚ
  projected_minutes : ℚ
  stage : Str
deriving DecidableEq, Repr

/-- `recent`: all valid entries of the latest entry's stage, sorted. -/
def recentOf (valid : List Entry) (stg : Str) : List Entry :=
  sortByDate (valid.filter (fun e => e.stage_name == some stg))

/-- `window = recent[-min(10, len(recent)):]`. -/
def windowOf (recent : List Entry) : List Entry :=
  recent.drop (recent.length - min 10 recent.length)

/-- `(wd2 - wd1).total_seconds() / 86400`. -/
def wdaysOf (a b : Entry) : ℚ := ((dateKeyE b : ℚ) - (dateKeyE a : ℚ)) / 1440

/-- The prediction section of `compute_analytics` (dashboard.py lines
183-210); `projected_minutes` is `proj = wd2 + timedelta(days=d2c)` on the
minute scale. -/
def predictionsOf (valid : List Entry) : Option Prediction :=
  match valid.getLast? with
  | none => none
  | some lastE =>
    match lastE.stage_name with
    | none => none
    | some stg =>
      if stg = [] then none
      else
        let recent := recentOf valid stg
        if 2 ≤ recent.length then
          match (windowOf recent).head?, (windowOf recent).getLast? with
          | some w1, some w2 =>
            let wdays := wdaysOf w1 w2
            if 0 < wdays then
              match w1.stage_percent, w2.stage_percent with
              | some p1, some p2 =>
                let rate := (p2 - p1) / wdays
                let remaining := 100 - pyOr0 p2
                if 0 < rate then
                  some { current_rate := pyRound rate 4,
                         days_remaining := pyRound (remaining / rate) 1,
                         projected_minutes := (dateKeyE w2 : ℚ) + (remaining / rate) * 1440,
                         stage := stg }
                else none
              | _, _ => none
            else none
          | _, _ => none
        else none

/-- The standard rendering of a 24-hour value back into 12-hour form with an
AM/PM marker, written from the specification's words for the round-trip
property (claim C7); it is compared against the conversion the code performs. -/
def spec12HourOf (h24 : Nat) : Nat × Bool :=
  if h24 = 0 then (12, false)
  else if h24 < 12 then (h24, false)
  else if h24 = 12 then (12, true)
  else (h24 - 12, true)

/-- Two consecutive `parse()` calls on the same parser object over unchanged
input: the pair of returned entry lists. -/
def parseTwice (p : LogParser) : Except String (List Entry × List Entry) :=
  match p.parse with
  | .error msg => .error msg
  | .ok a =>
    match a.1.parse with
    | .error msg => .error msg
    | .ok b => .ok (a.2, b.2)

/-- Years of the dated entries a parse run returns. -/
def yearsOfRun (r : Except String (LogParser × List Entry)) : List Nat :=
  match r with
  | .ok (_, es) => es.map (fun e => (e.date.map (fun d => d.year)).getD 0)
  | .error _ => []

/-- "Celestial Early" as a character list. -/
def stgCE : Str := "Celestial Early".toList

/-- A dated Celestial Early entry at 50 percent (for claim C1). -/
def exC1a : Entry :=
  { date := some ⟨2025, 1, 1, 12, 0⟩, stage_name := some stgCE,
    stage_percent := some 50 }

/-- A later entry two stages further on, Celestial Late at 5 percent. -/
def exC1b : Entry :=
  { date := some ⟨2025, 2, 1, 12, 0⟩,
    stage_name := some ("Celestial Late".toList), stage_percent := some 5 }

/-- Log content with a leap base year, a November entry, then a February 29
entry that the rollover rewrites into the following non-leap year (claim C2). -/
def c2content : Str := "2024\nNovember 1\nFebruary 29".toList

/-- A block whose body has a padded line and a blank line (claim C3). -/
def c3block : Str := "January 1\n  x y  \n\nz".toList

/-- Two same-stage entries with identical dates and increasing percent
(claim C4). -/
def exC4a : Entry :=
  { date := some ⟨2025, 3, 1, 10, 0⟩, stage_name := some stgCE,
    stage_percent := some 10 }

def exC4b : Entry :=
  { date := some ⟨2025, 3, 1, 10, 0⟩, stage_name := some stgCE,
    stage_percent := some 20 }

/-- A block whose header carries a 150 percent stage value (claim C5). -/
def c5block : Str := "January 1, 12:00 PM - Celestial Early (150%)".toList

/-- Log content whose blocks run November, December, January, February under
base year 2024 (claim C6). -/
def c6content : Str := "2024\nNovember 5\nDecember 3\nJanuary 2\nFebruary 7".toList

/-- A header with a displayed hour of 13 and a PM marker (claim C7). -/
def c7header : Str := "January 1, 13:05 PM - x".toList

/-- Body text with two grade mentions, the last being G5 at 40% (claim C8). -/
def c8text : Str := "G2 at 10% and G5 at 40%".toList

/-- An entry pre-populated by breakthrough detection (claim C8). -/
def exC8 : Entry := { g_level := some 9, g_percent := some 6 }

/-- Body text with only a bare currently-at phrase (claim C8). -/
def c8textCur : Str := "Almost Breakthrough, currently at 55%".toList

/-- Two dated same-stage entries two days apart at 10 and 20 percent
(claim C9). -/
def exC9a : Entry :=
  { date := some ⟨2025, 3, 1, 0, 0⟩, stage_name := some stgCE,
    stage_percent := some 10 }

def exC9b : Entry :=
  { date := some ⟨2025, 3, 3, 0, 0⟩, stage_name := some stgCE,
    stage_percent := some 20 }

/-- A one-block log used to call `parse()` twice (claim C10). -/
def c10parser : LogParser :=
  { log_content := "January 1 - Celestial Early (10%)".toList }

/-- A header with a valid displayed time of 8:53 AM (witness input). -/
def c7okHeader : Str := "September 15, 8:53 AM - Celestial Early (12.5%)".toList

theorem pyRound_zero (n : Nat) : pyRound 0 n = 0 := by
  simp [pyRound, pyRoundInt]

theorem scanFor_some {α : Type} (P : α → Prop) (f : Str → Option α)
    (hf : ∀ s v, f s = some v → P v) :
    ∀ s v, scanFor f s = some v → P v := by
  intro s
  induction s with
  | nil => intro v hv; simp [scanFor] at hv
  | cons c rest ih =>
    intro v hv
    rw [scanFor] at hv
    cases hcf : f (c :: rest) with
    | some w => rw [hcf] at hv; exact hf _ _ (hcf.trans hv)
    | none => rw [hcf] at hv; exact ih v hv

theorem rolloverYears_no_trigger (ms : List Nat) :
    ∀ (Y pm : Nat), pm < 10 → (∀ m ∈ ms, m < 10) →
      rolloverYears Y (some pm) ms = List.replicate ms.length Y := by
  induction ms with
  | nil => intro Y pm _ _; rfl
  | cons m rest ih =>
    intro Y pm hpm hall
    have hm : m < 10 := hall m (by simp)
    have htrig : rolloverTriggers (some pm) m = false := by
      simp only [rolloverTriggers, Bool.and_eq_false_iff]
      left
      simpa using by omega
    rw [rolloverYears, htrig]
    simp only [Bool.false_eq_true, if_false, List.length_cons,
      List.replicate_succ, List.cons.injEq, true_and]
    exact ih Y m hm (fun x hx => hall x (List.mem_cons_of_mem m hx))

/-- C6: over months `[Nov, Dec]` followed by any run of January/February
months, the rollover fold of `LogParser.parse` assigns the base year `Y` to
the November and December entries and `Y+1` to every following
January/February entry, incrementing exactly once however many such blocks
follow; and on the four-block log `c6content` (base year 2024) the full parse
yields entry years 2024, 2024, 2025, 2025. -/
theorem c6_year_rollover :
    (∀ (Y : Nat) (ms : List Nat), (∀ m ∈ ms, m = 1 ∨ m = 2) →
      rolloverYears Y none (11 :: 12 :: ms) =
        Y :: Y :: List.replicate ms.length (Y + 1)) ∧
    yearsOfRun (LogParser.parse { log_content := c6content }) =
      [2024, 2024, 2025, 2025] := by
  constructor
  · intro Y ms hms
    have h11 : rolloverTriggers none 11 = false := rfl
    have h12 : rolloverTriggers (some 11) 12 = false := by decide
    rw [rolloverYears, h11]
    simp only [Bool.false_eq_true, if_false]
    rw [rolloverYears, h12]
    simp only [Bool.false_eq_true, if_false, List.cons.injEq, true_and]
    cases ms with
    | nil => rfl
    | cons m rest =>
      have hm : m = 1 ∨ m = 2 := hms m (List.mem_cons_self m rest)
      have htrig : rolloverTriggers (some 12) m = true := by
        rcases hm with h | h <;> simp [rolloverTriggers, h]
      rw [rolloverYears, htrig]
      simp only [if_true, List.length_cons, List.replicate_succ,
        List.cons.injEq, true_and]
      have hmlt : m < 10 := by rcases hm with h | h <;> omega
      exact rolloverYears_no_trigger rest (Y + 1) m hmlt
        (fun x hx =>
          by rcases hms x (List.mem_cons_of_mem m hx) with h | h <;> omega)
  · rfl

/-- Witness for C6 at base year 2024 and trailing months January, February,
January. -/
theorem c6_year_rollover_witness :
    rolloverYears 2024 none [11, 12, 1, 2, 1] =
      [2024, 2024, 2025, 2025, 2025] := by
  simpa using c6_year_rollover.1 2024 [1, 2, 1] (by decide)

/-- C2 (code bug): on a log with leap base year 2024, a November entry and a
February 29 entry, the year-rollover rewrite `entry.date.replace(year=2025)`
hits an invalid date and the whole parse raises a `ValueError` instead of
degrading gracefully. -/
theorem c2_parse_raises_on_feb29_rollover :
    LogParser.parse { log_content := c2content } =
      .error "ValueError: day is out of range for month" := by
  rfl

/-- C7 counterexample: the header `January 1, 13:05 PM` contains an explicit
`H:MM AM|PM` time matched by the time pattern, yet the recovered 24-hour
value is 25, outside [0,23] (so the claim as stated fails at this header). -/
theorem c7_claim_counterexample :
    recoverHour24 c7header = some (25, 5) ∧ ¬(25 ≤ 23) := by
  exact ⟨rfl, by decide⟩

/-- C7 (amended): for headers whose matched displayed hour lies in the
12-hour range 1..12, the recovered 24-hour value lies in [0,23] and the
standard 12-hour rendering of it reproduces the displayed hour and marker. -/
theorem c7_time_roundtrip_amended (s : Str) (h mi : Nat) (pm : Bool)
    (_hs : searchTimeVals s = some (h, mi, pm)) (h1 : 1 ≤ h) (h2 : h ≤ 12) :
    to24 h pm ≤ 23 ∧ spec12HourOf (to24 h pm) = (h, pm) := by
  cases pm <;> interval_cases h <;> decide

/-- Witness for C7 (amended) on the 8:53 AM header. -/
theorem c7_time_roundtrip_amended_witness :
    searchTimeVals c7okHeader = some (8, 53, false) ∧
    to24 8 false ≤ 23 ∧ spec12HourOf (to24 8 false) = (8, false) := by
  refine ⟨rfl, ?_⟩
  exact c7_time_roundtrip_amended c7okHeader 8 53 false rfl (by decide) (by decide)

/-- C8: `_parse_g_info` takes the last `G<N> at <X>%` occurrence as
authoritative, overwriting whatever breakthrough detection stored; with no
occurrence it leaves the grade level untouched and fills the grade percent
from a bare `currently at X%` phrase only when the percent is still unset. -/
theorem c8_g_info_last_match (text : Str) (e : Entry) :
    (∀ pre g q, findGAt text = pre ++ [(g, q)] →
      (parse_g_info text e).g_level = some g ∧
      (parse_g_info text e).g_percent = some q) ∧
    (findGAt text = [] →
      (parse_g_info text e).g_level = e.g_level ∧
      (parse_g_info text e).g_percent =
        (match e.g_percent, searchCurrently text with
         | none, some q => some q
         | gp, _ => gp)) := by
  constructor
  · intro pre g q hlast
    unfold parse_g_info
    rw [hlast, List.getLast?_concat]
    exact ⟨rfl, rfl⟩
  · intro hnone
    unfold parse_g_info
    rw [hnone]
    simp only [List.getLast?_nil]
    cases hgp : e.g_percent with
    | none =>
      simp only [if_pos rfl]
      cases hc : searchCurrently text with
      | none => simp [hgp]
      | some q => simp [hgp]
    | some p =>
      rw [if_neg (by simp [hgp])]
      simp [hgp]

/-- Witness for C8: the last of two grade mentions wins and overwrites the
breakthrough-set values; and with no grade mention the level is untouched
while the percent is filled from the currently-at phrase. -/
theorem c8_g_info_last_match_witness :
    ((parse_g_info c8text exC8).g_level = some 5 ∧
     (parse_g_info c8text exC8).g_percent = some 40) ∧
    ((parse_g_info c8textCur ({} : Entry)).g_level = ({} : Entry).g_level ∧
     (parse_g_info c8textCur ({} : Entry)).g_percent =
       (match ({} : Entry).g_percent, searchCurrently c8textCur with
        | none, some q => some q
        | gp, _ => gp)) := by
  constructor
  · exact (c8_g_info_last_match c8text exC8).1 [(2, 10)] 5 40
      (by with_unfolding_all decide)
  · exact (c8_g_info_last_match c8textCur ({} : Entry)).2
      (by with_unfolding_all decide)

/-- C1 counterexample: with one Celestial Early entry at 50 percent and one
Celestial Late entry (two positions later, no Celestial Middle entry at all),
the specification's completion predicate holds for Celestial Early, yet the
computed per-stage statistics mark it not completed — the code only looks at
the immediately following stage. -/
theorem c1_claim_counterexample :
    specCompleted (validEntries [exC1a, exC1b]) stgCE = true ∧
    (stageStatFor (validEntries [exC1a, exC1b]) stgCE).completed = false := by
  constructor
  · with_unfolding_all decide
  · with_unfolding_all decide

/-- C1 (amended): a stage with at least one entry is marked completed exactly
when its end percent is at least 99 or some entry belongs to the immediately
following stage in the fixed order; a stage with no entries is never marked
completed. -/
theorem c1_completed_amended (es : List Entry) (stage : Str)
    (_hst : stage ∈ STAGE_ORDER) :
    (stageStatFor (validEntries es) stage).completed =
      (decide (stageEntriesSorted (validEntries es) stage ≠ []) &&
       (decide (99 ≤ endPercent (validEntries es) stage) ||
        (decide (STAGE_ORDER.indexOf stage < STAGE_ORDER.length - 1) &&
         (validEntries es).any (fun e =>
           e.stage_name == some (STAGE_ORDER.getD (STAGE_ORDER.indexOf stage + 1) []))))) := by
  unfold stageStatFor endPercent
  cases hl : stageEntriesSorted (validEntries es) stage with
  | nil => simp
  | cons e0 rest =>
    have hgl : (e0 :: rest).getLast? = some ((e0 :: rest).getLast (by simp)) :=
      List.getLast?_eq_getLast _ _
    simp [hgl]

/-- Witness for C1 (amended) on the two-entry counterexample data. -/
theorem c1_completed_amended_witness :
    stgCE ∈ STAGE_ORDER ∧
    (stageStatFor (validEntries [exC1a, exC1b]) stgCE).completed =
      (decide (stageEntriesSorted (validEntries [exC1a, exC1b]) stgCE ≠ []) &&
       (decide (99 ≤ endPercent (validEntries [exC1a, exC1b]) stgCE) ||
        (decide (STAGE_ORDER.indexOf stgCE < STAGE_ORDER.length - 1) &&
         (validEntries [exC1a, exC1b]).any (fun e =>
           e.stage_name == some (STAGE_ORDER.getD (STAGE_ORDER.indexOf stgCE + 1) []))))) := by
  refine ⟨by decide, ?_⟩
  exact c1_completed_amended [exC1a, exC1b] stgCE (by decide)

theorem parse_breakthrough_stage_percent (t : Str) (e : Entry) :
    (parse_breakthrough t e).stage_percent = e.stage_percent := by
  unfold parse_breakthrough
  repeat' split
  all_goals rfl

theorem parse_g_info_stage_percent (t : Str) (e : Entry) :
    (parse_g_info t e).stage_percent = e.stage_percent := by
  unfold parse_g_info
  repeat' split
  all_goals rfl

theorem parse_time_to_next_stage_percent (t : Str) (e : Entry) :
    (parse_time_to_next t e).stage_percent = e.stage_percent := by
  unfold parse_time_to_next
  repeat' split
  all_goals (dsimp only; repeat' split) <;> rfl

theorem numValOf_nonneg (a b : Str) : 0 ≤ numValOf a b := by
  unfold numValOf
  positivity

theorem parseNumAt_nonneg (s : Str) (q : ℚ) (r : Str)
    (h : parseNumAt s = some (q, r)) : 0 ≤ q := by
  unfold parseNumAt at h
  dsimp only at h
  split at h
  · exact absurd h (by simp)
  · split at h
    all_goals
      simp only [Option.some.injEq, Prod.mk.injEq] at h
    all_goals
      rw [← h.1]
    all_goals
      exact numValOf_nonneg _ _

theorem pctAt_nonneg (s : Str) (q : ℚ) (h : pctAt s = some q) : 0 ≤ q := by
  unfold pctAt at h
  split at h
  case h_2 => exact absurd h (by simp)
  case h_1 rr =>
    split at h
    · rename_i q2 r2 hp
      split at h
      · rename_i tl
        simp only [Option.some.injEq] at h
        rw [← h]
        exact parseNumAt_nonneg rr q2 _ hp
      · exact absurd h (by simp)
    · exact absurd h (by simp)

theorem parse_stage_percent_nonneg (s : Str) (q : ℚ)
    (h : parse_stage_percent s = some q) : 0 ≤ q :=
  scanFor_some (fun v => 0 ≤ v) pctAt pctAt_nonneg s q h

/-- C5 counterexample: the block header carries `(150%)`; the assembled
entry's stage percent is 150, outside [0,100], so the claimed invariant
fails. -/
theorem c5_claim_counterexample :
    (parse_block c5block 2025).bind Entry.stage_percent = some 150 ∧
    ¬((150 : ℚ) ≤ 100) := by
  constructor
  · with_unfolding_all rfl
  · with_unfolding_all decide

/-- C5 (amended): every assembled entry's stage percent is either unknown or
a non-negative rational — the parser guarantees no negative values, but
nothing bounds the value above by 100. -/
theorem c5_stage_percent_amended (block : Str) (year : Nat) :
    ((parse_block block year).map (fun e =>
      e.stage_percent.all (fun q => decide (0 ≤ q)))).getD true = true := by
  unfold parse_block
  cases hsl : splitLines (strip block) with
  | nil => rfl
  | cons h0 rest =>
    simp only []
    cases hd : parse_date (strip h0) year with
    | none => simp [hd]
    | some d =>
      simp only [hd, Option.map_some, Option.getD_some]
      rw [parse_time_to_next_stage_percent, parse_g_info_stage_percent,
        parse_breakthrough_stage_percent]
      simp only []
      cases hq : parse_stage_percent (strip h0) with
      | none => simp [hq]
      | some q =>
        simp [hq, Option.all_some, parse_stage_percent_nonneg _ _ hq]

/-- C3 counterexample: for a block whose body has a whitespace-padded line
and a blank line, the assembled notes are the stripped non-blank lines, not
the verbatim tail of the block — the claim as stated fails here. -/
theorem c3_claim_counterexample :
    (parse_block c3block 2025).map Entry.notes =
      some ["x y".toList, "z".toList] ∧
    (splitLines (strip c3block)).drop 1 =
      ["  x y  ".toList, "".toList, "z".toList] ∧
    (parse_block c3block 2025).map Entry.notes ≠
      some ((splitLines (strip c3block)).drop 1) := by
  refine ⟨rfl, rfl, ?_⟩
  decide

/-- C3 (amended): for every parsed block, the assembled entry's notes equal
the lines after the header each stripped of surrounding whitespace, with
blank lines dropped, in order. -/
theorem c3_notes_amended (block : Str) (year : Nat) :
    ((parse_block block year).map (fun e =>
      decide (e.notes = (((splitLines (strip block)).drop 1).map strip).filter
        (fun l => l ≠ [])))).getD true = true := by
  unfold parse_block
  cases hsl : splitLines (strip block) with
  | nil => rfl
  | cons h0 rest =>
    simp only [List.drop_succ_cons, List.drop_zero]
    cases hd : parse_date (strip h0) year with
    | none => simp [hd]
    | some d => simp [hd]

/-- C4 counterexample: two same-stage entries with the same timestamp and
rising percent (one qualifying pair, zero elapsed hours).  The efficiency map
does contain the stage — with both ratios zero — rather than excluding it as
the claim states. -/
theorem c4_claim_counterexample :
    effPairs (stageEntriesSorted (validEntries [exC4a, exC4b]) stgCE) =
      (0, 10) ∧
    (efficiencyOf (validEntries [exC4a, exC4b])).lookup stgCE =
      some { hours_per_pct := 0, pct_per_day := 0 } := by
  constructor
  · with_unfolding_all decide
  · with_unfolding_all decide

/-- C4 (amended): a stage with at least two entries whose accumulated
qualifying pairs give zero total hours and positive total percent is kept in
the efficiency map with `hours_per_pct = 0` and `pct_per_day = 0` (no
division by zero is raised, but the stage is not excluded). -/
theorem c4_efficiency_amended (valid : List Entry) (stage : Str) (t : ℚ)
    (hlen : 2 ≤ (stageEntriesSorted valid stage).length)
    (hacc : effPairs (stageEntriesSorted valid stage) = (0, t)) (ht : 0 < t) :
    effFor valid stage = some { hours_per_pct := 0, pct_per_day := 0 } := by
  unfold effFor
  rw [if_neg (by omega), hacc, if_pos ht]
  have h0 : (0 : ℚ) / t = 0 := zero_div t
  simp [h0, pyRound_zero]

/-- Witness for C4 (amended) on the zero-elapsed two-entry data. -/
theorem c4_efficiency_amended_witness :
    2 ≤ (stageEntriesSorted (validEntries [exC4a, exC4b]) stgCE).length ∧
    effFor (validEntries [exC4a, exC4b]) stgCE =
      some { hours_per_pct := 0, pct_per_day := 0 } := by
  refine ⟨by with_unfolding_all decide, ?_⟩
  exact c4_efficiency_amended (validEntries [exC4a, exC4b]) stgCE 10
    (by with_unfolding_all decide) (by with_unfolding_all decide)
    (by with_unfolding_all decide)

/-- C9: the prediction for the current stage uses the window of up to the
last 10 entries of that stage.  With at least 2 entries of the stage, known
first/last window percents, positive elapsed days and positive rate, the
prediction holds the projected completion time `window end + (100 - end
percent) / rate` days; with a non-positive rate, or fewer than 2 entries of
the stage, no prediction is produced. -/
theorem c9_prediction (valid : List Entry) (lastE : Entry) (stg : Str)
    (hl : valid.getLast? = some lastE) (hs : lastE.stage_name = some stg)
    (hne : stg ≠ []) :
    (∀ w1 w2 p1 p2,
      (windowOf (recentOf valid stg)).head? = some w1 →
      (windowOf (recentOf valid stg)).getLast? = some w2 →
      w1.stage_percent = some p1 → w2.stage_percent = some p2 →
      0 < wdaysOf w1 w2 →
      2 ≤ (recentOf valid stg).length →
      ((0 < (p2 - p1) / wdaysOf w1 w2 →
        predictionsOf valid =
          some { current_rate := pyRound ((p2 - p1) / wdaysOf w1 w2) 4,
                 days_remaining :=
                   pyRound ((100 - pyOr0 p2) / ((p2 - p1) / wdaysOf w1 w2)) 1,
                 projected_minutes :=
                   (dateKeyE w2 : ℚ) +
                     ((100 - pyOr0 p2) / ((p2 - p1) / wdaysOf w1 w2)) * 1440,
                 stage := stg }) ∧
       ((p2 - p1) / wdaysOf w1 w2 ≤ 0 → predictionsOf valid = none))) ∧
    ((recentOf valid stg).length < 2 → predictionsOf valid = none) := by
  constructor
  · intro w1 w2 p1 p2 hw1 hw2 hp1 hp2 hwd hlen
    have hbase :
        predictionsOf valid =
          (if 0 < (p2 - p1) / wdaysOf w1 w2 then
            some { current_rate := pyRound ((p2 - p1) / wdaysOf w1 w2) 4,
                   days_remaining :=
                     pyRound ((100 - pyOr0 p2) / ((p2 - p1) / wdaysOf w1 w2)) 1,
                   projected_minutes :=
                     (dateKeyE w2 : ℚ) +
                       ((100 - pyOr0 p2) / ((p2 - p1) / wdaysOf w1 w2)) * 1440,
                   stage := stg }
           else none) := by
      unfold predictionsOf
      rw [hl]
      simp only []
      rw [hs]
      simp only []
      rw [if_neg hne, if_pos hlen, hw1, hw2]
      simp only []
      rw [if_pos hwd, hp1, hp2]
    constructor
    · intro hrate
      rw [hbase, if_pos hrate]
    · intro hrate
      rw [hbase, if_neg (by exact not_lt.mpr hrate)]
  · intro hlen
    unfold predictionsOf
    rw [hl]
    simp only []
    rw [hs]
    simp only []
    rw [if_neg hne, if_neg (by omega)]

set_option maxRecDepth 20000 in
/-- Witness for C9: two entries two days apart at 10 and 20 percent yield a
prediction; a single entry yields none. -/
theorem c9_prediction_witness :
    (predictionsOf (validEntries [exC9a, exC9b])).isSome = true ∧
    predictionsOf (validEntries [exC9a]) = none := by
  constructor
  · have h :=
      ((c9_prediction (validEntries [exC9a, exC9b]) exC9b stgCE
          (by with_unfolding_all decide) rfl (by decide)).1
        exC9a exC9b 10 20
          (by with_unfolding_all decide) (by with_unfolding_all decide)
          rfl rfl
          (by with_unfolding_all decide) (by with_unfolding_all decide)).1
        (by with_unfolding_all decide)
    rw [h]
    rfl
  · exact (c9_prediction (validEntries [exC9a]) exC9a stgCE
      (by with_unfolding_all decide) rfl (by decide)).2
      (by with_unfolding_all decide)

/-- C10: `parse()` is not idempotent on a parser object: starting from an
empty accumulated entry list, a second call over the unchanged input returns
the first call's result concatenated with an identical fresh parse — the
list doubles in length.  (If a call raises, the comparison is vacuous.) -/
theorem c10_parse_appends (p : LogParser) (h : p.entries = []) :
    match parseTwice p with
    | .ok x => x.2 = x.1 ++ x.1 ∧ x.2.length = 2 * x.1.length
    | .error _ => True := by
  unfold parseTwice LogParser.parse
  cases hy : searchYearLine p.log_content with
  | none =>
    simp only [hy, Option.getD_none]
    cases hb : parseBlocksAux p.base_year none (splitAtMonths p.log_content) with
    | error msg => simp
    | ok fresh => simp [h, hy, hb, two_mul]
  | some y =>
    simp only [hy, Option.getD_some]
    cases hb : parseBlocksAux y none (splitAtMonths p.log_content) with
    | error msg => simp
    | ok fresh => simp [h, hy, hb, two_mul]

/-- Witness for C10 on a one-block log: the first call returns one entry, the
second returns it twice. -/
theorem c10_parse_appends_witness :
    c10parser.entries = [] ∧
    (match parseTwice c10parser with
     | .ok x => x.2 = x.1 ++ x.1 ∧ x.2.length = 2 * x.1.length
     | .error _ => True) ∧
    (parseTwice c10parser).toOption.map (fun x => (x.1.length, x.2.length)) =
      some (1, 2) := by
  refine ⟨rfl, c10_parse_appends c10parser rfl, ?_⟩
  with_unfolding_all decide
